import Mathlib

/-!
A verification development for the devbox shell-bootstrap subsystem
(`shell/shell.go`) and the `exclude` list helper.  The Go code is embedded
shallowly: every environment read and filesystem effect is an explicit field
of an `OsEnv` snapshot, and each Go function becomes a pure Lean function of
that snapshot.  Path manipulation follows Go's `path/filepath` package with
the Unix separator `/`, which is the platform the program targets.
-/

namespace Devbox

/-- Go's `unicode.IsSpace` on a rune: the exact set of code points Go treats
as white space (the Latin-1 fast path plus the `White_Space` property). -/
def goIsSpace (c : Char) : Bool :=
  let n := c.toNat
  n = 0x20 ∨ (0x9 ≤ n ∧ n ≤ 0xD) ∨ n = 0x85 ∨ n = 0xA0 ∨ n = 0x1680 ∨
  (0x2000 ≤ n ∧ n ≤ 0x200A) ∨ n = 0x2028 ∨ n = 0x2029 ∨ n = 0x202F ∨
  n = 0x205F ∨ n = 0x3000

/-- Trim leading and trailing Go white space from a character list, as
`strings.TrimSpace` / `bytes.TrimSpace` do. -/
def goTrimSpaceList (l : List Char) : List Char :=
  ((l.dropWhile goIsSpace).reverse.dropWhile goIsSpace).reverse

/-- Go's `strings.TrimSpace` on a string. -/
def goTrimSpace (s : String) : String :=
  String.mk (goTrimSpaceList s.toList)

/-- Split a character list at every `/`, as `strings.Split(s, "/")` does
(`cur` accumulates the current component in reverse). -/
def splitSlashAux : List Char → List Char → List String
  | cur, [] => [String.mk cur.reverse]
  | cur, c :: rest =>
    if c = '/' then String.mk cur.reverse :: splitSlashAux [] rest
    else splitSlashAux (c :: cur) rest

/-- `strings.Split(path, "/")`. -/
def splitSlash (path : String) : List String :=
  splitSlashAux [] path.toList

/-- The component-processing loop of Go's `filepath.Clean` (Unix rules):
`acc` holds the cleaned components in reverse order. -/
def cleanComps (rooted : Bool) : List String → List String → List String
  | acc, [] => acc.reverse
  | acc, c :: rest =>
    if c = "" ∨ c = "." then cleanComps rooted acc rest
    else if c = ".." then
      match acc with
      | [] => if rooted then cleanComps rooted [] rest
              else cleanComps rooted [".."] rest
      | a :: as_ =>
        if a = ".." then cleanComps rooted (".." :: a :: as_) rest
        else cleanComps rooted as_ rest
    else cleanComps rooted (c :: acc) rest

/-- Go's `filepath.Clean` on Unix: shortest lexical equivalent of the path. -/
def filepathClean (path : String) : String :=
  if path = "" then "."
  else
    let rooted := path.toList.head? = some '/'
    let out := cleanComps rooted [] (splitSlash path)
    if rooted then "/" ++ String.intercalate "/" out
    else if out = [] then "." else String.intercalate "/" out

/-- Go's `filepath.Base` on Unix: the last element of the path after
removing trailing separators. -/
def filepathBase (path : String) : String :=
  if path = "" then "."
  else
    let r := path.toList.reverse.dropWhile (fun c => c = '/')
    if r = [] then "/"
    else String.mk (r.takeWhile (fun c => c ≠ '/')).reverse

/-- Go's `filepath.Dir` on Unix: everything but the last element, cleaned. -/
def filepathDir (path : String) : String :=
  filepathClean (String.mk (path.toList.reverse.dropWhile (fun c => c ≠ '/')).reverse)

/-- Go's `filepath.Join` on Unix: drop leading empty elements, join the rest
with `/`, and clean; all-empty input yields the empty string. -/
def filepathJoin (elems : List String) : String :=
  match elems.dropWhile (fun e => e = "") with
  | [] => ""
  | rest => filepathClean (String.intercalate "/" rest)

/-- The `name` constants of `shell.go` (`shUnknown` ... `shPosix`) as a
closed enumeration; only these five values ever occur. -/
inductive ShName where
  | unknown
  | bash
  | zsh
  | ksh
  | posix
deriving DecidableEq

/-- The `Shell` struct of `shell.go`.  Zero values mirror Go's. -/
structure Shell where
  name : ShName := ShName.unknown
  path : String := ""
  initFile : String := ""
  devboxInitFile : String := ""
  PreInitHook : String := ""
  PostInitHook : String := ""
deriving DecidableEq

/-- A snapshot of the ambient process state `shell.go` reads: the `SHELL`,
`ENV` and `PATH` environment variables, the result of `os.UserHomeDir`
(`none` models its error), and the filesystem operations `os.ReadFile`,
`os.MkdirTemp` and `os.WriteFile` as explicit (possibly failing) maps. -/
structure OsEnv where
  shellVar : String
  envVar : String
  pathVar : String
  home : Option String
  readFile : String → Except String String
  mkdirTemp : Except String String
  writeFile : String → String → Except String Unit

/-- `rcfilePath` of `shell.go`: home-relative rcfile path, or `""` when the
home directory cannot be determined. -/
def rcfilePath (home : Option String) (basename : String) : String :=
  match home with
  | none => ""
  | some h => filepathJoin [h, basename]

/-- The `switch base` classification inside `Detect`. -/
def classify (home : Option String) (envVar : String) (base : String) (sh : Shell) : Shell :=
  if base = "bash" then
    { sh with name := ShName.bash, initFile := rcfilePath home ".bashrc" }
  else if base = "zsh" then
    { sh with name := ShName.zsh, initFile := rcfilePath home ".zshrc" }
  else if base = "ksh" then
    { sh with name := ShName.ksh, initFile := rcfilePath home ".kshrc" }
  else if base = "dash" ∨ base = "ash" ∨ base = "sh" then
    { sh with name := ShName.posix,
              initFile := if envVar = "" then ".shinit" else envVar }
  else sh

/-- The login-shell convention handling in `Detect`: strip one leading `-`
from the base name. -/
def stripLoginDash (base : String) : String :=
  match base.toList with
  | c :: rest => if c = '-' then String.mk rest else base
  | [] => base

/-- `Detect` of `shell.go`. -/
def Detect (w : OsEnv) : Except String Shell :=
  if w.shellVar = "" then Except.error "unable to detect the current shell"
  else
    Except.ok (classify w.home w.envVar
      (stripLoginDash (filepathBase w.shellVar))
      { path := filepathClean w.shellVar })

/-- The pre-hook block written by `buildInitFile` when the trimmed pre-hook
is non-empty (exact marker text from the Go string literals). -/
def preBlock (prehook : String) : String :=
  if prehook = "" then ""
  else "\n# Begin Devbox Pre-init Hook\n\n" ++ prehook ++
       "\n\n# End Devbox Pre-init Hook\n\n"

/-- The post-hook block written by `buildInitFile` when the trimmed
post-hook is non-empty.  The begin marker reuses the pre-init literal and
the end marker says post-init, exactly as in the source. -/
def postBlock (posthook : String) : String :=
  if posthook = "" then ""
  else "\n\n# Begin Devbox Pre-init Hook\n\n" ++ posthook ++
       "\n\n# End Devbox Post-init Hook"

/-- The assembled buffer of `buildInitFile` after the final
`bytes.TrimSpace`: pre-hook block, trimmed native content, post-hook block
(the `len(initFile) > 0` guard in the source only skips writing an empty
slice, which changes nothing). -/
def trimmedBuf (prehook native posthook : String) : String :=
  goTrimSpace (preBlock prehook ++ goTrimSpace native ++ postBlock posthook)

/-- `Shell.buildInitFile` of `shell.go`.  `Except.ok none` is the
distinguished "no content" result (Go's `nil, nil`); `Except.error`
propagates the `os.ReadFile` failure unchanged. -/
def buildInitFile (w : OsEnv) (s : Shell) : Except String (Option String) :=
  if goTrimSpace s.PreInitHook = "" ∧ goTrimSpace s.PostInitHook = "" then
    Except.ok none
  else
    match w.readFile s.initFile with
    | Except.error e => Except.error e
    | Except.ok initFileContent =>
      if trimmedBuf (goTrimSpace s.PreInitHook) initFileContent
           (goTrimSpace s.PostInitHook) = "" then Except.ok none
      else Except.ok (some (trimmedBuf (goTrimSpace s.PreInitHook) initFileContent
             (goTrimSpace s.PostInitHook) ++ "\n"))

/-- `Shell.writeHooks` of `shell.go`: compose, create the temp dir, write
`<tmp>/<base of initFile>`, and record it in `devboxInitFile`.  Note the
composed content is written even when it is the "no content" signal (Go
passes the nil slice to `os.WriteFile`, which writes an empty file). -/
def writeHooks (w : OsEnv) (s : Shell) : Except String Shell :=
  match buildInitFile w s with
  | Except.error e => Except.error e
  | Except.ok initContents =>
    match w.mkdirTemp with
    | Except.error e => Except.error ("create temp dir for shell init file: " ++ e)
    | Except.ok tmp =>
      match w.writeFile (filepathJoin [tmp, filepathBase s.initFile])
              (initContents.getD "") with
      | Except.error e => Except.error ("write to shell init file: " ++ e)
      | Except.ok _ =>
        Except.ok { s with devboxInitFile := filepathJoin [tmp, filepathBase s.initFile] }

/-- `Shell.ExecCommand` of `shell.go`.  The format strings are transcribed
byte for byte (including the trailing space of the ksh/posix variant). -/
def ExecCommand (w : OsEnv) (s : Shell) : String :=
  match writeHooks w s with
  | Except.error _ => "exec " ++ s.path
  | Except.ok s' =>
    if s'.devboxInitFile = "" then "exec " ++ s.path
    else
      match s'.name with
      | ShName.bash =>
        "exec /usr/bin/env ORIGINAL_PATH=\"" ++ w.pathVar ++ "\" " ++ s'.path ++
        " --rcfile \"" ++ s'.devboxInitFile ++ "\""
      | ShName.zsh =>
        "exec /usr/bin/env ORIGINAL_PATH=\"" ++ w.pathVar ++ "\" ZDOTDIR=\"" ++
        filepathDir s'.devboxInitFile ++ "\" " ++ s'.path
      | ShName.ksh =>
        "exec /usr/bin/env ORIGINAL_PATH=\"" ++ w.pathVar ++ "\" ENV=\"" ++
        s'.devboxInitFile ++ "\" " ++ s'.path ++ " "
      | ShName.posix =>
        "exec /usr/bin/env ORIGINAL_PATH=\"" ++ w.pathVar ++ "\" ENV=\"" ++
        s'.devboxInitFile ++ "\" " ++ s'.path ++ " "
      | ShName.unknown => "exec " ++ s.path

/-- `exclude` of `devbox.go`: keep, in order, the elements of `s` that are
not in `elems` (the Go loop filters through a membership map). -/
def exclude (s : List String) (elems : List String) : List String :=
  s.filter (fun str => !(elems.contains str))

/-- A concrete healthy environment: `SHELL=/bin/zsh`, resolvable home,
temp-dir creation and file writes succeed, every read returns empty
content. -/
def wNoHooks : OsEnv where
  shellVar := "/bin/zsh"
  envVar := ""
  pathVar := "/usr/bin:/bin"
  home := some "/home/user"
  readFile := fun _ => Except.ok ""
  mkdirTemp := Except.ok "/tmp/devbox123"
  writeFile := fun _ _ => Except.ok ()

/-- The descriptor `Detect` produces in `wNoHooks`; both hooks are empty. -/
def shNoHooks : Shell where
  name := ShName.zsh
  path := "/bin/zsh"
  initFile := "/home/user/.zshrc"

/-! ## Helper lemmas -/

lemma data_ext {s t : String} (h : s.data = t.data) : s = t :=
  congrArg String.mk h

lemma classify_path (home : Option String) (envVar base : String) (sh : Shell) :
    (classify home envVar base sh).path = sh.path := by
  unfold classify
  split_ifs <;> rfl

lemma classify_name_initFile_indep (home : Option String) (envVar base p₁ p₂ : String) :
    (classify home envVar base { path := p₁ }).name =
      (classify home envVar base { path := p₂ }).name ∧
    (classify home envVar base { path := p₁ }).initFile =
      (classify home envVar base { path := p₂ }).initFile := by
  unfold classify
  split_ifs <;> exact ⟨rfl, rfl⟩

lemma stripLoginDash_dash (b : String) : stripLoginDash ("-" ++ b) = b := by
  have h : ("-" ++ b).toList = '-' :: b.toList := by
    show ("-" ++ b).data = '-' :: b.data
    rw [String.data_append]
    rfl
  unfold stripLoginDash
  rw [h]
  show (if '-' = '-' then ({ data := b.toList } : String) else "-" ++ b) = b
  rfl

lemma stripLoginDash_no_dash (b : String) (h : b.toList.head? ≠ some '-') :
    stripLoginDash b = b := by
  unfold stripLoginDash
  split
  · rename_i c rest heq
    rw [if_neg]
    intro hc
    exact h (by rw [heq, hc]; rfl)
  · rfl

lemma dropWhile_goIsSpace_cons_false {c : Char} (hc : goIsSpace c = false)
    (l : List Char) : (c :: l).dropWhile goIsSpace = c :: l := by
  rw [List.dropWhile_cons, hc]
  simp

lemma dropWhile_goIsSpace_head (l : List Char) (c : Char)
    (h1 : l.head? = some c) (hc : goIsSpace c = false) :
    l.dropWhile goIsSpace = l := by
  cases l with
  | nil => rfl
  | cons a t =>
    injection h1 with h1
    subst h1
    exact dropWhile_goIsSpace_cons_false hc t

lemma goTrimSpaceList_eq_self (l : List Char) (c d : Char)
    (h1 : l.head? = some c) (hc : goIsSpace c = false)
    (h2 : l.getLast? = some d) (hd : goIsSpace d = false) :
    goTrimSpaceList l = l := by
  unfold goTrimSpaceList
  rw [dropWhile_goIsSpace_head l c h1 hc]
  have hrev : l.reverse.head? = some d := by rw [List.head?_reverse]; exact h2
  rw [dropWhile_goIsSpace_head l.reverse d hrev hd, List.reverse_reverse]

lemma goTrimSpaceList_cons_space (c : Char) (l : List Char)
    (h : goIsSpace c = true) :
    goTrimSpaceList (c :: l) = goTrimSpaceList l := by
  unfold goTrimSpaceList
  rw [List.dropWhile_cons, h]
  simp

lemma goTrimSpaceList_wrap (A B ph : List Char)
    (hA : A.head? = some '#') (hB : B.getLast? = some '1') :
    goTrimSpaceList ('\n' :: (A ++ (ph ++ B))) = A ++ (ph ++ B) := by
  rw [goTrimSpaceList_cons_space _ _ (by decide)]
  have hAne : A ≠ [] := by
    intro hE
    rw [hE] at hA
    exact Option.noConfusion hA
  have hBne : B ≠ [] := by
    intro hE
    rw [hE] at hB
    exact Option.noConfusion hB
  refine goTrimSpaceList_eq_self _ '#' '1' ?_ (by decide) ?_ (by decide)
  · rw [List.head?_append_of_ne_nil _ hAne]
    exact hA
  · rw [← List.append_assoc, List.getLast?_append_of_ne_nil _ hBne]
    exact hB

lemma trimmedBuf_pre_native (ph : String) (hph : ph ≠ "") :
    trimmedBuf ph "export X=1" "" =
      "# Begin Devbox Pre-init Hook\n\n" ++ ph ++
      "\n\n# End Devbox Pre-init Hook\n\nexport X=1" := by
  have hN : goTrimSpace "export X=1" = "export X=1" := rfl
  have hpost : postBlock "" = "" := rfl
  unfold trimmedBuf
  rw [hpost, hN]
  unfold preBlock
  rw [if_neg hph]
  apply data_ext
  have gl : ∀ x : String, (goTrimSpace x).data = goTrimSpaceList x.data := fun _ => rfl
  have step : (("\n# Begin Devbox Pre-init Hook\n\n" ++ ph ++
      "\n\n# End Devbox Pre-init Hook\n\n") ++ "export X=1" ++ "").data =
      '\n' :: (("# Begin Devbox Pre-init Hook\n\n" : String).data ++
        (ph.data ++ ("\n\n# End Devbox Pre-init Hook\n\nexport X=1" : String).data)) := by
    simp only [String.data_append, List.append_assoc, List.append_nil,
      List.cons_append, List.nil_append]
  rw [gl, step,
    goTrimSpaceList_wrap ("# Begin Devbox Pre-init Hook\n\n" : String).data
      ("\n\n# End Devbox Pre-init Hook\n\nexport X=1" : String).data ph.data
      rfl (by decide)]
  simp only [String.data_append, List.append_assoc]

/-! ## Claim theorems -/

/-- Claim C5: whenever both hook scripts trim to the empty string,
`buildInitFile` returns the distinguished "no content" result (Go's
`nil, nil`).  The environment `w`, and in particular its `readFile` map, is
universally quantified, so the result holds whatever the native init file
contains and even when every read fails: the native file is never consulted. -/
theorem buildInitFile_no_hooks (w : OsEnv) (s : Shell)
    (hpre : goTrimSpace s.PreInitHook = "")
    (hpost : goTrimSpace s.PostInitHook = "") :
    buildInitFile w s = Except.ok none := by
  unfold buildInitFile
  rw [if_pos ⟨hpre, hpost⟩]

/-- Claim C5 witness: a shell with whitespace-only hooks against a
filesystem on which every read fails still composes to "no content". -/
theorem buildInitFile_no_hooks_witness :
    buildInitFile
      { shellVar := "/bin/zsh", envVar := "", pathVar := "", home := some "/home/user",
        readFile := fun _ => Except.error "permission denied",
        mkdirTemp := Except.ok "/tmp/devbox123", writeFile := fun _ _ => Except.ok () }
      { name := ShName.zsh, path := "/bin/zsh", initFile := "/home/user/.zshrc",
        PreInitHook := " \n\t ", PostInitHook := "" } = Except.ok none :=
  buildInitFile_no_hooks _ _ (by decide) (by decide)

/-- Claim C2: once at least one trimmed hook is non-empty, a failure to
read the native init file is propagated unchanged by `buildInitFile`, and
`ExecCommand` then degrades to the plain `exec <path>` fallback. -/
theorem buildInitFile_read_error_fallback (w : OsEnv) (s : Shell) (e : String)
    (hhook : ¬(goTrimSpace s.PreInitHook = "" ∧ goTrimSpace s.PostInitHook = ""))
    (hread : w.readFile s.initFile = Except.error e) :
    buildInitFile w s = Except.error e ∧ ExecCommand w s = "exec " ++ s.path := by
  have hb : buildInitFile w s = Except.error e := by
    unfold buildInitFile
    rw [if_neg hhook, hread]
  refine ⟨hb, ?_⟩
  unfold ExecCommand writeHooks
  rw [hb]

/-- Claim C2 witness: `/bin/bash` with pre-hook `"echo hi"`, empty
post-hook, and a missing `.bashrc` yields the propagated read error and the
plain `exec /bin/bash` command. -/
theorem buildInitFile_read_error_fallback_witness :
    buildInitFile
      { shellVar := "/bin/bash", envVar := "", pathVar := "/usr/bin:/bin",
        home := some "/root", readFile := fun _ => Except.error "open /root/.bashrc: no such file or directory",
        mkdirTemp := Except.ok "/tmp/devbox42", writeFile := fun _ _ => Except.ok () }
      { name := ShName.bash, path := "/bin/bash", initFile := "/root/.bashrc",
        PreInitHook := "echo hi", PostInitHook := "" }
      = Except.error "open /root/.bashrc: no such file or directory" ∧
    ExecCommand
      { shellVar := "/bin/bash", envVar := "", pathVar := "/usr/bin:/bin",
        home := some "/root", readFile := fun _ => Except.error "open /root/.bashrc: no such file or directory",
        mkdirTemp := Except.ok "/tmp/devbox42", writeFile := fun _ _ => Except.ok () }
      { name := ShName.bash, path := "/bin/bash", initFile := "/root/.bashrc",
        PreInitHook := "echo hi", PostInitHook := "" }
      = "exec /bin/bash" :=
  buildInitFile_read_error_fallback _ _ _ (by decide) rfl

/-- Claim C8: `Detect` fails (with its "no shell" error) exactly when the
`SHELL` signal is empty; on every non-empty signal it succeeds and the
descriptor's executable path is the cleaned signal. -/
theorem detect_error_iff_no_shell (w : OsEnv) :
    (w.shellVar = "" ∧ Detect w = Except.error "unable to detect the current shell") ∨
    (w.shellVar ≠ "" ∧ ∃ sh, Detect w = Except.ok sh ∧ sh.path = filepathClean w.shellVar) := by
  by_cases h : w.shellVar = ""
  · refine Or.inl ⟨h, ?_⟩
    unfold Detect
    rw [if_pos h]
  · refine Or.inr ⟨h, classify w.home w.envVar (stripLoginDash (filepathBase w.shellVar))
      { path := filepathClean w.shellVar }, ?_, ?_⟩
    · unfold Detect
      rw [if_neg h]
    · rw [classify_path]

/-- Claim C7: a (hyphen-stripped) base name of `dash`, `ash` or `sh`
classifies as posix-like, with the native init file equal to `$ENV`, or the
bare literal `.shinit` when `$ENV` is unset or empty. -/
theorem detect_posix_env_shinit (w : OsEnv) (sh : Shell)
    (h : w.shellVar ≠ "")
    (hb : stripLoginDash (filepathBase w.shellVar) = "dash" ∨
          stripLoginDash (filepathBase w.shellVar) = "ash" ∨
          stripLoginDash (filepathBase w.shellVar) = "sh")
    (hd : Detect w = Except.ok sh) :
    sh.name = ShName.posix ∧
    sh.initFile = (if w.envVar = "" then ".shinit" else w.envVar) := by
  unfold Detect at hd
  rw [if_neg h] at hd
  injection hd with hd
  subst hd
  have h1 : stripLoginDash (filepathBase w.shellVar) ≠ "bash" := by
    rcases hb with hb | hb | hb <;> rw [hb] <;> decide
  have h2 : stripLoginDash (filepathBase w.shellVar) ≠ "zsh" := by
    rcases hb with hb | hb | hb <;> rw [hb] <;> decide
  have h3 : stripLoginDash (filepathBase w.shellVar) ≠ "ksh" := by
    rcases hb with hb | hb | hb <;> rw [hb] <;> decide
  unfold classify
  rw [if_neg h1, if_neg h2, if_neg h3, if_pos hb]
  exact ⟨rfl, rfl⟩

/-- Claim C7 witness: `SHELL=/bin/dash` with `ENV` unset detects as
posix-like with the bare relative init file `.shinit`. -/
theorem detect_posix_env_shinit_witness :
    ({ name := ShName.posix, path := "/bin/dash", initFile := ".shinit" } : Shell).name
        = ShName.posix ∧
    ({ name := ShName.posix, path := "/bin/dash", initFile := ".shinit" } : Shell).initFile
        = (if ("" : String) = "" then ".shinit" else "") :=
  detect_posix_env_shinit
    { shellVar := "/bin/dash", envVar := "", pathVar := "", home := none,
      readFile := fun _ => Except.error "x", mkdirTemp := Except.error "x",
      writeFile := fun _ _ => Except.ok () }
    { name := ShName.posix, path := "/bin/dash", initFile := ".shinit" }
    (by decide) (Or.inl (by decide)) rfl

/-- Claim C6: a leading hyphen on the base name (login-shell convention) is
stripped, exactly one character, before classification: any signal whose
base name is `-` followed by `b` detects with the same family and the same
native init file as a signal whose base name is `b` (same environment
otherwise).  The executable paths may of course differ. -/
theorem detect_strips_login_hyphen (w : OsEnv) (p' b : String)
    (h : w.shellVar ≠ "") (h' : p' ≠ "")
    (hb : filepathBase w.shellVar = "-" ++ b)
    (hb' : filepathBase p' = b)
    (hhead : b.toList.head? ≠ some '-') :
    ∃ sh sh', Detect w = Except.ok sh ∧
      Detect { w with shellVar := p' } = Except.ok sh' ∧
      sh.name = sh'.name ∧ sh.initFile = sh'.initFile := by
  refine ⟨classify w.home w.envVar b { path := filepathClean w.shellVar },
          classify w.home w.envVar b { path := filepathClean p' }, ?_, ?_, ?_, ?_⟩
  · unfold Detect
    rw [if_neg h, hb, stripLoginDash_dash]
  · unfold Detect
    dsimp only
    rw [if_neg h', hb', stripLoginDash_no_dash b hhead]
  · exact (classify_name_initFile_indep w.home w.envVar b _ _).1
  · exact (classify_name_initFile_indep w.home w.envVar b _ _).2

/-- Claim C6 witness: `SHELL=-bash` detects with the same family and init
file as `SHELL=bash` in the same environment. -/
theorem detect_strips_login_hyphen_witness :
    ∃ sh sh',
      Detect { shellVar := "-bash", envVar := "", pathVar := "", home := some "/home/u",
               readFile := fun _ => Except.error "x", mkdirTemp := Except.error "x",
               writeFile := fun _ _ => Except.ok () } = Except.ok sh ∧
      Detect { shellVar := "bash", envVar := "", pathVar := "", home := some "/home/u",
               readFile := fun _ => Except.error "x", mkdirTemp := Except.error "x",
               writeFile := fun _ _ => Except.ok () } = Except.ok sh' ∧
      sh.name = sh'.name ∧ sh.initFile = sh'.initFile :=
  detect_strips_login_hyphen
    { shellVar := "-bash", envVar := "", pathVar := "", home := some "/home/u",
      readFile := fun _ => Except.error "x", mkdirTemp := Except.error "x",
      writeFile := fun _ _ => Except.ok () }
    "bash" "bash" (by decide) (by decide) (by decide) (by decide) (by decide)

lemma writeHooks_ok_fields (w : OsEnv) (s s' : Shell)
    (h : writeHooks w s = Except.ok s') :
    s'.name = s.name ∧ s'.path = s.path := by
  unfold writeHooks at h
  split at h
  · exact Except.noConfusion h
  · split at h
    · exact Except.noConfusion h
    · split at h
      · exact Except.noConfusion h
      · injection h with h
        subst h
        exact ⟨rfl, rfl⟩

/-- Claim C4: after a successful materialization (`writeHooks` succeeded
and recorded a non-empty path), `ExecCommand` dispatches on the family:
bash-like gets `--rcfile <file>`, zsh-like gets `ZDOTDIR=<dir of file>`,
ksh-like and posix-like get `ENV=<file>`, and every branch exports the
snapshot `PATH` value as `ORIGINAL_PATH`. -/
theorem execCommand_family_dispatch (w : OsEnv) (s s' : Shell)
    (hw : writeHooks w s = Except.ok s') (hne : s'.devboxInitFile ≠ "") :
    (s.name = ShName.bash → ExecCommand w s =
      "exec /usr/bin/env ORIGINAL_PATH=\"" ++ w.pathVar ++ "\" " ++ s.path ++
      " --rcfile \"" ++ s'.devboxInitFile ++ "\"") ∧
    (s.name = ShName.zsh → ExecCommand w s =
      "exec /usr/bin/env ORIGINAL_PATH=\"" ++ w.pathVar ++ "\" ZDOTDIR=\"" ++
      filepathDir s'.devboxInitFile ++ "\" " ++ s.path) ∧
    ((s.name = ShName.ksh ∨ s.name = ShName.posix) → ExecCommand w s =
      "exec /usr/bin/env ORIGINAL_PATH=\"" ++ w.pathVar ++ "\" ENV=\"" ++
      s'.devboxInitFile ++ "\" " ++ s.path ++ " ") := by
  obtain ⟨hn, hp⟩ := writeHooks_ok_fields w s s' hw
  refine ⟨?_, ?_, ?_⟩ <;> intro hfam <;> unfold ExecCommand <;> split
  · rename_i e heq
    rw [hw] at heq
    exact Except.noConfusion heq
  · rename_i s'' heq
    rw [hw] at heq
    injection heq with heq
    subst heq
    rw [if_neg hne, hn, hfam, hp]
  · rename_i e heq
    rw [hw] at heq
    exact Except.noConfusion heq
  · rename_i s'' heq
    rw [hw] at heq
    injection heq with heq
    subst heq
    rw [if_neg hne, hn, hfam, hp]
  · rename_i e heq
    rw [hw] at heq
    exact Except.noConfusion heq
  · rename_i s'' heq
    rw [hw] at heq
    injection heq with heq
    subst heq
    rcases hfam with hfam | hfam <;> rw [if_neg hne, hn, hfam, hp]

/-- Claim C4 witness: a bash shell with a successful materialization gets
the `--rcfile` form with `ORIGINAL_PATH` exported. -/
theorem execCommand_family_dispatch_witness :
    ExecCommand
      { shellVar := "/bin/bash", envVar := "", pathVar := "/bin", home := some "/home/u",
        readFile := fun _ => Except.ok "export X=1", mkdirTemp := Except.ok "/tmp/devbox1",
        writeFile := fun _ _ => Except.ok () }
      { name := ShName.bash, path := "/bin/bash", initFile := "/home/u/.bashrc",
        PreInitHook := "echo hi", PostInitHook := "" } =
    "exec /usr/bin/env ORIGINAL_PATH=\"/bin\" /bin/bash --rcfile \"/tmp/devbox1/.bashrc\"" :=
  (execCommand_family_dispatch
    { shellVar := "/bin/bash", envVar := "", pathVar := "/bin", home := some "/home/u",
      readFile := fun _ => Except.ok "export X=1", mkdirTemp := Except.ok "/tmp/devbox1",
      writeFile := fun _ _ => Except.ok () }
    { name := ShName.bash, path := "/bin/bash", initFile := "/home/u/.bashrc",
      PreInitHook := "echo hi", PostInitHook := "" }
    { name := ShName.bash, path := "/bin/bash", initFile := "/home/u/.bashrc",
      devboxInitFile := "/tmp/devbox1/.bashrc",
      PreInitHook := "echo hi", PostInitHook := "" }
    rfl (by decide)).1 rfl

/-- Claim C10: a shell of unknown family always execs plainly.  First
conjunct: `ExecCommand` returns `exec <path>` for every environment and
every pair of hooks when the family is unknown — whether composition fails
(reading the empty init-file path), the write to `<tmp>/.` fails, or both
steps somehow succeed and the dispatch hits the default branch.  Second
conjunct: `Detect` gives an unknown-family descriptor an empty native
init-file path. -/
theorem execCommand_unknown_family_fallback :
    (∀ (w : OsEnv) (s : Shell), s.name = ShName.unknown →
      ExecCommand w s = "exec " ++ s.path) ∧
    (∀ (w : OsEnv) (sh : Shell), Detect w = Except.ok sh →
      sh.name = ShName.unknown → sh.initFile = "") := by
  constructor
  · intro w s hname
    unfold ExecCommand
    split
    · rfl
    · rename_i s' hw
      have hn : s'.name = s.name := (writeHooks_ok_fields w s s' hw).1
      split
      · rfl
      · rw [hn, hname]
  · intro w sh hd hn
    unfold Detect at hd
    by_cases h : w.shellVar = ""
    · rw [if_pos h] at hd
      exact Except.noConfusion hd
    · rw [if_neg h] at hd
      injection hd with hd
      subst hd
      unfold classify at hn ⊢
      split_ifs at hn ⊢
      rfl

/-- Claim C10 witness: an unrecognized shell (`fish`) with a non-empty
pre-hook still execs plainly. -/
theorem execCommand_unknown_family_fallback_witness :
    ExecCommand
      { shellVar := "/usr/bin/fish", envVar := "", pathVar := "/bin", home := some "/home/u",
        readFile := fun _ => Except.error "open : no such file or directory",
        mkdirTemp := Except.ok "/tmp/devboxZ", writeFile := fun _ _ => Except.ok () }
      { name := ShName.unknown, path := "/usr/bin/fish", PreInitHook := "echo hi" } =
    "exec /usr/bin/fish" :=
  execCommand_unknown_family_fallback.1
    { shellVar := "/usr/bin/fish", envVar := "", pathVar := "/bin", home := some "/home/u",
      readFile := fun _ => Except.error "open : no such file or directory",
      mkdirTemp := Except.ok "/tmp/devboxZ", writeFile := fun _ _ => Except.ok () }
    { name := ShName.unknown, path := "/usr/bin/fish", PreInitHook := "echo hi" }
    rfl

/-- Claim C3: with a non-empty trimmed pre-hook, an empty trimmed
post-hook, and native content `export X=1`, the composed file is exactly
the pre-init marker pair around the trimmed pre-hook, then the native
content, with no post-init end marker emitted and exactly one trailing
newline appended to the trimmed buffer. -/
theorem buildInitFile_pre_hook_only (w : OsEnv) (s : Shell)
    (hpre : goTrimSpace s.PreInitHook ≠ "")
    (hpost : goTrimSpace s.PostInitHook = "")
    (hread : w.readFile s.initFile = Except.ok "export X=1") :
    buildInitFile w s = Except.ok (some
      ("# Begin Devbox Pre-init Hook\n\n" ++ goTrimSpace s.PreInitHook ++
       "\n\n# End Devbox Pre-init Hook\n\nexport X=1" ++ "\n")) := by
  have hne : ("# Begin Devbox Pre-init Hook\n\n" ++ goTrimSpace s.PreInitHook ++
      "\n\n# End Devbox Pre-init Hook\n\nexport X=1") ≠ "" := by
    intro hE
    have hdata := congrArg String.data hE
    simp only [String.data_append] at hdata
    rcases List.append_eq_nil.mp hdata with ⟨h12, h3⟩
    rcases List.append_eq_nil.mp h12 with ⟨h1, h2⟩
    exact absurd h1 (by decide)
  unfold buildInitFile
  rw [if_neg (fun hc => hpre hc.1), hread]
  show (if trimmedBuf (goTrimSpace s.PreInitHook) "export X=1"
          (goTrimSpace s.PostInitHook) = "" then Except.ok none
        else Except.ok (some (trimmedBuf (goTrimSpace s.PreInitHook) "export X=1"
          (goTrimSpace s.PostInitHook) ++ "\n"))) = _
  rw [hpost, trimmedBuf_pre_native _ hpre, if_neg hne]

/-- Claim C3 witness: pre-hook `"  echo hi "`, whitespace post-hook, native
content `export X=1` compose to the marked file with one trailing newline. -/
theorem buildInitFile_pre_hook_only_witness :
    buildInitFile
      { shellVar := "/bin/bash", envVar := "", pathVar := "", home := some "/home/u",
        readFile := fun _ => Except.ok "export X=1", mkdirTemp := Except.error "x",
        writeFile := fun _ _ => Except.ok () }
      { name := ShName.bash, path := "/bin/bash", initFile := "/home/u/.bashrc",
        PreInitHook := "  echo hi ", PostInitHook := " " } =
    Except.ok (some
      "# Begin Devbox Pre-init Hook\n\necho hi\n\n# End Devbox Pre-init Hook\n\nexport X=1\n") :=
  buildInitFile_pre_hook_only _ _ (by decide) (by decide) rfl

/-- Claim C1 evaluated on the code (refuting it): with `SHELL=/bin/zsh`,
both hooks empty, and a healthy filesystem, `buildInitFile` does return the
distinguished "no content" signal, but `writeHooks` ignores it and
materializes an empty init file anyway, so `ExecCommand` returns the
wrapped `ZDOTDIR` command — not the plain `exec /bin/zsh`.  (On the
success path `devboxInitFile` is always set to a non-empty join, so the
`devboxInitFile == ""` fallback in `ExecCommand` cannot fire there; the
dead check and the unconsumed nil signal indicate the skip was intended.) -/
theorem execCommand_empty_hooks_materializes :
    Detect wNoHooks = Except.ok shNoHooks ∧
    goTrimSpace shNoHooks.PreInitHook = "" ∧
    goTrimSpace shNoHooks.PostInitHook = "" ∧
    buildInitFile wNoHooks shNoHooks = Except.ok none ∧
    ExecCommand wNoHooks shNoHooks =
      "exec /usr/bin/env ORIGINAL_PATH=\"/usr/bin:/bin\" ZDOTDIR=\"/tmp/devbox123\" /bin/zsh" ∧
    ExecCommand wNoHooks shNoHooks ≠ "exec /bin/zsh" :=
  ⟨rfl, rfl, rfl, rfl, rfl, by decide⟩

lemma filter_length_partition (p : String → Bool) (l : List String) :
    (l.filter fun a => !(p a)).length + (l.filter p).length = l.length := by
  induction l with
  | nil => rfl
  | cons a t ih =>
    cases hp : p a <;> simp [List.filter_cons, hp] <;> omega

/-- Claim C9: `exclude` keeps a subsequence of its input (so survivors stay
in relative order), its output never meets the exclusion list, every input
element outside the exclusion list survives, and the output length is the
input length minus the number of input positions (duplicates counted) whose
element occurs in the exclusion list. -/
theorem exclude_spec (s e : List String) :
    (exclude s e).Sublist s ∧
    (∀ x, x ∈ exclude s e → x ∉ e) ∧
    (∀ x, x ∈ s → x ∉ e → x ∈ exclude s e) ∧
    (exclude s e).length = s.length - (s.filter fun x => e.contains x).length := by
  refine ⟨List.filter_sublist s, ?_, ?_, ?_⟩
  · intro x hx hmem
    unfold exclude at hx
    simp only [List.mem_filter] at hx
    have h2 : e.contains x = true := List.elem_iff.mpr hmem
    rw [h2] at hx
    exact absurd hx.2 (by decide)
  · intro x hx hmem
    unfold exclude
    simp only [List.mem_filter]
    refine ⟨hx, ?_⟩
    cases hc : e.contains x
    · rfl
    · exact absurd (List.elem_iff.mp hc) hmem
  · have h2 : (exclude s e).length + (s.filter fun x => e.contains x).length
        = s.length := filter_length_partition (fun x => e.contains x) s
    omega

end Devbox
